import Mathlib

/-!
# na62-farm: frame dispatch, burst-ID epoch and L2 event building

A shallow embedding of

* `src/socket/HandleFrameTask.{h,cpp}`  (frame check, dispatch, burst-ID advance),
* `src/socket/PacketHandler.cpp`        (polling loop with backoff, EOB reception),
* `src/eventBuilding/L2Builder.cpp`     (LKr join and L2 verdict),

followed by theorems about these definitions.

Conventions.  Header fields are the values read after `ntohs`.  Unsigned machine
integers are natural numbers with the wrap-around written out (`% 2^16`, `% 2^32`,
`% 2^64`).  Calls into code that is not part of these sources (library classes, the
event pool, the storage handler, the trigger algorithms) are either parameters of an
environment record or logged in a call trace, in program order.
-/

namespace na62

/-! ## Network structures -/

def ETHERTYPE_IP : Nat := 0x0800

def ETHERTYPE_ARP : Nat := 0x0806

def IPPROTO_UDP : Nat := 17

/-- Value of `sizeof(struct ether_header)`. -/
def sizeof_ether_header : Nat := 14

/-- Value of `sizeof(struct iphdr)`. -/
def sizeof_iphdr : Nat := 20

/-- Value of `sizeof(struct udphdr)`. -/
def sizeof_udphdr : Nat := 8

/-- Value of `sizeof(struct UDP_HDR)`: ethernet, IP and UDP header. -/
def sizeof_UDP_HDR : Nat := sizeof_ether_header + sizeof_iphdr + sizeof_udphdr

def wrap8 (n : Nat) : Nat := n % 2 ^ 8

def wrap16 (n : Nat) : Nat := n % 2 ^ 16

def wrap32 (n : Nat) : Nat := n % 2 ^ 32

def wrap64 (n : Nat) : Nat := n % 2 ^ 64

/-- The fields of `struct UDP_HDR` the code reads, in host byte order.
`isFragment` is the result of `UDP_HDR::isFragment()`, a library helper. -/
structure UDP_HDR where
  ether_type : Nat
  protocol : Nat
  daddr : Nat
  tot_len : Nat
  udp_len : Nat
  udp_dest : Nat
  isFragment : Bool
  deriving DecidableEq, Repr

/-- A received buffer: `data` seen through the `UDP_HDR` view, the captured
`length` (a `uint16_t`), and the word `finishedBurstID` the buffer shows when it
is seen through the `EOB_FULL_FRAME` view. -/
structure DataContainer where
  hdr : UDP_HDR
  length : Nat
  finishedBurstID : Nat
  deriving DecidableEq, Repr

/-- An L0 fragment (`l0::MEPFragment`). -/
structure MEPFragment where
  eventNumber : Nat
  dataLength : Nat
  deriving DecidableEq, Repr

/-- A parsed L0 multi-event packet (`l0::MEP`); `getNumberOfEvents` is the
length of `events`, `getEvent i` is its `i`-th entry. -/
structure MEP where
  sourceID : Nat
  firstEventNum : Nat
  events : List MEPFragment
  deriving DecidableEq, Repr

/-- An LKr fragment (`cream::LKREvent`). -/
structure LKREvent where
  eventNumber : Nat
  eventLength : Nat
  deriving DecidableEq, Repr

/-- A parsed calorimeter multi-event packet (`cream::LKRMEP`). -/
structure LKRMEP where
  events : List LKREvent
  deriving DecidableEq, Repr

/-- The exceptions caught at the end of `execute` and `processPacket`. -/
inductive MEPError where
  | UnknownSourceIDFound
  | UnknownCREAMSourceIDFound
  | NA62Error
  deriving DecidableEq, Repr

/-! ## Burst IDs and receive counters -/

/-- The static members `currentBurstID_`, `nextBurstID_` and
`eobFrameReceivedTime_` of `HandleFrameTask`.  The timer is represented by the
time point (nanoseconds) at which it was last started. -/
structure BurstState where
  currentBurstID_ : Nat
  nextBurstID_ : Nat
  eobFrameReceivedTime_ : Int
  deriving DecidableEq, Repr

/-- The three per-source counter arrays of `PacketHandler`. -/
structure ReceiveCounters where
  MEPsReceivedBySourceID_ : Nat → Nat
  EventsReceivedBySourceID_ : Nat → Nat
  BytesReceivedBySourceID_ : Nat → Nat

/-- `PacketHandler::Initialize`: every counter starts at zero. -/
def PacketHandler.Initialize : ReceiveCounters :=
  { MEPsReceivedBySourceID_ := fun _ => 0
    EventsReceivedBySourceID_ := fun _ => 0
    BytesReceivedBySourceID_ := fun _ => 0 }

/-- The process-wide state touched by frame handling. -/
structure FarmState where
  burst : BurstState
  counters : ReceiveCounters

/-- `array[i] += n` on an array of 64-bit counters. -/
def addAt (a : Nat → Nat) (i n : Nat) : Nat → Nat :=
  fun j => if j = i then wrap64 (a j + n) else a j

/-- The three counter updates made for a received MEP. -/
def countMEP (c : ReceiveCounters) (sourceID numberOfEvents length : Nat) :
    ReceiveCounters :=
  { MEPsReceivedBySourceID_ := addAt c.MEPsReceivedBySourceID_ sourceID 1
    EventsReceivedBySourceID_ := addAt c.EventsReceivedBySourceID_ sourceID numberOfEvents
    BytesReceivedBySourceID_ := addAt c.BytesReceivedBySourceID_ sourceID length }

/-- `HandleFrameTask::initialize`, burst-ID part: both IDs start at the
configured first burst ID.  `t0` is when the static timer was constructed. -/
def HandleFrameTask.initialize (firstBurstID : Nat) (t0 : Int) : BurstState :=
  { currentBurstID_ := wrap32 firstBurstID
    nextBurstID_ := wrap32 firstBurstID
    eobFrameReceivedTime_ := t0 }

/-- `HandleFrameTask::setNextBurstId` (HandleFrameTask.h): store the next burst
ID and restart the EOB timer; `now` is the time of the call. -/
def HandleFrameTask.setNextBurstId (b : BurstState) (burstID : Nat) (now : Int) :
    BurstState :=
  { b with nextBurstID_ := wrap32 burstID, eobFrameReceivedTime_ := now }

/-- `eobFrameReceivedTime_.elapsed().wall`: nanoseconds since the timer was
started. -/
def elapsedWall (b : BurstState) (now : Int) : Int :=
  now - b.eobFrameReceivedTime_

/-- The guard `eobFrameReceivedTime_.elapsed().wall / 1E6 > 1000 /*1s*/`.
The quotient is taken exactly (in ℚ); for a 64-bit nanosecond count the rounded
double quotient compares with 1000 in the same way, because 1000 is a double and
the nearest quotient above it, 1000.000001, is far more than one ulp away. -/
def eobLongEnoughAgo (b : BurstState) (now : Int) : Bool :=
  decide (((elapsedWall b now : Int) : ℚ) / 1000000 > 1000)

/-! ## HandleFrameTask -/

/-- Everything `HandleFrameTask::execute` reads that is not in the frame: the
static configuration set by `initialize`, the two MEP constructors (library; they
either build the MEP or throw), the library constant `SOURCE_ID_LKr`, and
`FragmentStore::addFragment`, which returns the reassembled datagram or a
container with null data (`none`). -/
structure FrameEnv where
  L0_Port : Nat
  CREAM_Port : Nat
  STRAW_PORT : Nat
  MyIP : Nat
  SOURCE_ID_LKr : Nat
  newMEP : DataContainer → Nat → Except MEPError MEP
  newLKRMEP : DataContainer → Nat → Except MEPError LKRMEP
  addFragment : DataContainer → Option DataContainer

/-- The calls `execute` makes into other components, in program order. -/
inductive FrameCall where
  | processARPRequest (c : DataContainer)
  | deleteData (c : DataContainer)
  | L1Builder_buildEvent (frag : MEPFragment) (burstID : Nat)
  | L2Builder_buildEvent (frag : LKREvent)
  | StrawReceiver_processFrame (c : DataContainer)
  | logUnknownPort (destPort : Nat)
  deriving DecidableEq, Repr

/-- Recognises a fragment handed to `L1Builder::buildEvent` or
`L2Builder::buildEvent`. -/
def FrameCall.isBuildEvent : FrameCall → Bool
  | .L1Builder_buildEvent _ _ => true
  | .L2Builder_buildEvent _ => true
  | _ => false

/-- `HandleFrameTask::checkFrame`. -/
def HandleFrameTask.checkFrame (hdr : UDP_HDR) (length : Nat) : Bool :=
  if hdr.isFragment then true
  else if hdr.tot_len + sizeof_ether_header ≠ length
      ∧ hdr.tot_len + sizeof_ether_header > length then false
  else if hdr.udp_len + sizeof_ether_header + sizeof_iphdr > length then false
  else true

/-- The burst-ID guard at the head of the L0 branch of `execute`. -/
def advanceBurstID (b : BurstState) (firstEventNum : Nat) (now : Int) : BurstState :=
  if b.nextBurstID_ ≠ b.currentBurstID_ ∧ firstEventNum < 1000
      ∧ eobLongEnoughAgo b now = true then
    { b with currentBurstID_ := b.nextBurstID_ }
  else b

/-- `UdpDataLength = ntohs(hdr->udp.len) - sizeof(struct udphdr)`, stored in a
`uint16_t`. -/
def udpDataLength (hdr : UDP_HDR) : Nat :=
  wrap16 (hdr.udp_len + 2 ^ 16 - sizeof_udphdr)

/-- The port dispatch of `execute` (lines 132-204) for a complete datagram,
with the `catch` clauses: a constructor that throws leaves the state as it was
and only the buffer is deleted. -/
def HandleFrameTask.dispatch (env : FrameEnv) (st : FarmState) (now : Int)
    (container : DataContainer) : FarmState × List FrameCall :=
  let hdr := container.hdr
  let destPort := hdr.udp_dest
  if destPort = env.L0_Port then
    match env.newMEP container (udpDataLength hdr) with
    | .error _ => (st, [.deleteData container])
    | .ok mep =>
      let burst := advanceBurstID st.burst mep.firstEventNum now
      let counters := countMEP st.counters mep.sourceID mep.events.length container.length
      ({ burst := burst, counters := counters },
        mep.events.reverse.map (fun e => .L1Builder_buildEvent e burst.currentBurstID_))
  else if destPort = env.CREAM_Port then
    match env.newLKRMEP container (udpDataLength hdr) with
    | .error _ => (st, [.deleteData container])
    | .ok mep =>
      let counters := countMEP st.counters env.SOURCE_ID_LKr mep.events.length container.length
      ({ st with counters := counters }, mep.events.map (fun e => .L2Builder_buildEvent e))
  else if destPort = env.STRAW_PORT then
    (st, [.StrawReceiver_processFrame container])
  else
    (st, [.logUnknownPort destPort, .deleteData container])

/-- The datagram `execute` goes on with after the IP-fragment step (lines
123-130): the frame itself, or what `FragmentStore::addFragment` hands back. -/
def HandleFrameTask.reassembled (env : FrameEnv) (container : DataContainer) :
    Option DataContainer :=
  if container.hdr.isFragment then env.addFragment container else some container

/-- `HandleFrameTask::execute`. -/
def HandleFrameTask.execute (env : FrameEnv) (st : FarmState) (now : Int)
    (container : DataContainer) : FarmState × List FrameCall :=
  let hdr := container.hdr
  if hdr.ether_type ≠ ETHERTYPE_IP ∨ hdr.protocol ≠ IPPROTO_UDP then
    if hdr.ether_type = ETHERTYPE_ARP then (st, [.processARPRequest container])
    else (st, [.deleteData container])
  else if HandleFrameTask.checkFrame hdr container.length = false then
    (st, [.deleteData container])
  else if env.MyIP ≠ hdr.daddr then
    (st, [.deleteData container])
  else
    match HandleFrameTask.reassembled env container with
    | none => (st, [])
    | some datagram => HandleFrameTask.dispatch env st now datagram

/-! ## PacketHandler -/

/-- `PacketHandler::checkFrame`. -/
def PacketHandler.checkFrame (hdr : UDP_HDR) (length : Nat) : Bool :=
  if hdr.tot_len + sizeof_ether_header ≠ length
      ∧ hdr.tot_len + sizeof_ether_header > length then false
  else if hdr.udp_len + sizeof_ether_header + sizeof_iphdr > length then false
  else true

/-- What `PacketHandler::processPacket` reads besides the frame: the three
configured ports, `NUMBER_OF_EBS`, the library constants `SOURCE_ID_LKr` and
`sizeof(struct EOB_FULL_FRAME)`, the MEP constructors, and the outcome of
pushing one fragment to an event-builder socket (`true`: sent, after any number
of `EINTR` retries; `false`: a `zmq::error_t` other than `EINTR`). -/
structure PacketEnv where
  L0_Port : Nat
  CREAM_Port : Nat
  EOB_BROADCAST_PORT : Nat
  NUMBER_OF_EBS : Nat
  SOURCE_ID_LKr : Nat
  sizeof_EOB_FULL_FRAME : Nat
  newMEP : DataContainer → Nat → Except MEPError MEP
  newLKRMEP : DataContainer → Nat → Except MEPError LKRMEP
  sendL0 : Nat → MEPFragment → Bool
  sendLKr : Nat → LKREvent → Bool

/-- The calls `processPacket` makes, in program order.  `divisionByZero` marks
the point where the code takes a remainder modulo `NUMBER_OF_EBS = 0`, which
ends the run of the code. -/
inductive PacketCall where
  | processARPRequest (c : DataContainer)
  | deleteData (c : DataContainer)
  | sendToEBL0 (socket : Nat) (frag : MEPFragment)
  | sendToEBLKr (socket : Nat) (frag : LKREvent)
  | closeSockets
  | divisionByZero
  | logUnrecognizableEOB
  | logEOB (burstID : Nat)
  | logUnknownPort (destPort : Nat)
  deriving DecidableEq, Repr

/-- Modelled from the spec: `EventBuilder::SetNextBurstID` is declared in
`eventBuilding/EventBuilder.h`, which is not among the sources.  The spec (4.6)
gives its effect: "On EOB broadcast reception: set `next_burst_id :=
payload.finished_burst_id + 1`; set `eob_received_at := now`"; the argument is
the already incremented ID. -/
def EventBuilder.SetNextBurstID (b : BurstState) (burstID : Nat) (now : Int) :
    BurstState :=
  { currentBurstID_ := b.currentBurstID_
    nextBurstID_ := wrap32 burstID
    eobFrameReceivedTime_ := now }

/-- The fixed EOB record size `sizeof(struct EOB_FULL_FRAME) - sizeof(UDP_HDR)`,
computed in `size_t`. -/
def eobRecordSize (env : PacketEnv) : Nat :=
  wrap64 (env.sizeof_EOB_FULL_FRAME + 2 ^ 64 - sizeof_UDP_HDR)

/-- The send loop of the L0 branch over the fragments still to be sent: every
fragment goes to socket `eventNumber % NUMBER_OF_EBS`; a failed send closes the
sockets and makes `processPacket` return `false`.  With `NUMBER_OF_EBS = 0` the
remainder is a division by zero: nothing is sent and the thread does not go
on. -/
def sendAllL0 (env : PacketEnv) : List MEPFragment → Bool × List PacketCall
  | [] => (true, [])
  | e :: es =>
    if env.NUMBER_OF_EBS = 0 then (false, [.divisionByZero])
    else
      let socket := e.eventNumber % env.NUMBER_OF_EBS
      if env.sendL0 socket e then
        let r := sendAllL0 env es
        (r.1, .sendToEBL0 socket e :: r.2)
      else (false, [.closeSockets])

/-- The send loop of the CREAM branch, with the same remainder modulo
`NUMBER_OF_EBS`. -/
def sendAllLKr (env : PacketEnv) : List LKREvent → Bool × List PacketCall
  | [] => (true, [])
  | e :: es =>
    if env.NUMBER_OF_EBS = 0 then (false, [.divisionByZero])
    else
      let socket := e.eventNumber % env.NUMBER_OF_EBS
      if env.sendLKr socket e then
        let r := sendAllLKr env es
        (r.1, .sendToEBLKr socket e :: r.2)
      else (false, [.closeSockets])

/-- Result of `processPacket`: the returned flag (`false` stops the thread; it is
also `false` when the run ended in a division by zero), the state afterwards and
the calls made. -/
structure PacketResult where
  ok : Bool
  st : FarmState
  calls : List PacketCall

/-- `PacketHandler::processPacket`; `now` is the time of the call. -/
def PacketHandler.processPacket (env : PacketEnv) (st : FarmState) (now : Int)
    (container : DataContainer) : PacketResult :=
  let hdr := container.hdr
  let destPort := hdr.udp_dest
  if hdr.ether_type ≠ ETHERTYPE_IP ∨ hdr.protocol ≠ IPPROTO_UDP then
    if hdr.ether_type = ETHERTYPE_ARP then
      ⟨true, st, [.processARPRequest container, .deleteData container]⟩
    else ⟨true, st, [.deleteData container]⟩
  else if PacketHandler.checkFrame hdr container.length = false then
    ⟨true, st, [.deleteData container]⟩
  else
    let dataLength := udpDataLength hdr
    if destPort = env.L0_Port then
      match env.newMEP container dataLength with
      | .error _ => ⟨true, st, [.deleteData container]⟩
      | .ok mep =>
        let counters := countMEP st.counters mep.sourceID mep.events.length container.length
        let r := sendAllL0 env mep.events.reverse
        ⟨r.1, { st with counters := counters }, r.2⟩
    else if destPort = env.CREAM_Port then
      match env.newLKRMEP container dataLength with
      | .error _ => ⟨true, st, [.deleteData container]⟩
      | .ok mep =>
        let counters := countMEP st.counters env.SOURCE_ID_LKr mep.events.length container.length
        let r := sendAllLKr env mep.events.reverse
        ⟨r.1, { st with counters := counters }, r.2⟩
    else if destPort = env.EOB_BROADCAST_PORT then
      if dataLength ≠ eobRecordSize env then
        ⟨true, st, [.logUnrecognizableEOB, .deleteData container]⟩
      else
        let burstID := wrap32 (container.finishedBurstID + 1)
        ⟨true, { st with burst := EventBuilder.SetNextBurstID st.burst burstID now },
          [.logEOB burstID]⟩
    else
      ⟨true, st, [.logUnknownPort destPort, .deleteData container]⟩

/-- One iteration of the polling loop reads: the return value of
`PFringHandler::GetNextFrame`, the frame it delivered (read only when the value
is 1; `length` holds `hdr.len`), the outcome of `DoSendMRP` (consulted only when
nothing was received and the local queue is empty), and the current time. -/
structure PollInput where
  result : Int
  frame : DataContainer
  DoSendMRP : Bool
  now : Int

/-- Local variables of `PacketHandler::thread` together with the shared state
and two logs: the intervals passed to `sleep`, and the calls of the packets
processed. -/
structure ThreadState where
  sleepMicros : Nat
  dataContainers : List DataContainer
  farm : FarmState
  slept : List Nat
  calls : List PacketCall

/-- State on entry to the loop (line 119): `sleepMicros = 1`, empty queue. -/
def ThreadState.init (farm : FarmState) : ThreadState :=
  { sleepMicros := 1, dataContainers := [], farm := farm, slept := [], calls := [] }

/-- One iteration of the `while (true)` loop of `PacketHandler::thread`.  The
flag is `false` when the iteration executes `return`. -/
def PacketHandler.loopBody (env : PacketEnv) (s : ThreadState) (inp : PollInput) :
    ThreadState × Bool :=
  if inp.result = 1 then
    let container := { inp.frame with length := wrap16 inp.frame.length }
    ({ s with dataContainers := s.dataContainers ++ [container], sleepMicros := 1 }, true)
  else
    match s.dataContainers with
    | [] =>
      if inp.DoSendMRP then ({ s with sleepMicros := 1 }, true)
      else
        let s1 := { s with slept := s.slept ++ [s.sleepMicros] }
        if s.sleepMicros < 10000 then ({ s1 with sleepMicros := s.sleepMicros * 2 }, true)
        else (s1, true)
    | front :: rest =>
      let r := PacketHandler.processPacket env s.farm inp.now front
      ({ s with dataContainers := rest, farm := r.st, calls := s.calls ++ r.calls }, r.ok)

/-- `PacketHandler::thread` run over the inputs of its successive iterations,
until they are used up or an iteration returns. -/
def PacketHandler.thread (env : PacketEnv) : ThreadState → List PollInput → ThreadState
  | s, [] => s
  | s, inp :: inps =>
    let r := PacketHandler.loopBody env s inp
    if r.2 then PacketHandler.thread env r.1 inps else r.1

/-- Invariant of the polling loop: `sleepMicros` is a power of two of at most
2^14 = 16384, and no logged sleep was longer than 16384 microseconds. -/
def BackoffInv (s : ThreadState) : Prop :=
  (∃ k, k ≤ 14 ∧ s.sleepMicros = 2 ^ k) ∧ ∀ t ∈ s.slept, t ≤ 16384

/-! ## L2Builder -/

/-- The code `L2Builder` calls but does not contain, over an event type `Event`
and a pool type `Pool`:

* the `Event` methods (library) `isWaitingForNonZSuppressedLKrData`,
  `setL2Processed`, `isL2Accepted` and `addLKREvent` (which reports whether the
  fragment was the last one missing);
* the two trigger entry points of `L2TriggerProcessor` (library), each returning
  its verdict together with the event as it left it;
* `StorageHandler::SendEvent`, returning the bytes written;
* `EventPool::GetEvent` (`none` for a null pointer) and `EventPool::FreeEvent`;
  `update` writes back to the pool what was changed in place through the event
  pointer. -/
structure L2Env (Event Pool : Type) where
  isWaitingForNonZSuppressedLKrData : Event → Bool
  setL2Processed : Event → Nat → Event
  isL2Accepted : Event → Bool
  addLKREvent : Event → LKREvent → Bool × Event
  compute : Event → Nat × Event
  onNonZSuppressedLKrDataReceived : Event → Nat × Event
  SendEvent : Event → Nat
  GetEvent : Pool → Nat → Option Event
  FreeEvent : Pool → Event → Pool
  update : Pool → Event → Pool

/-- The static counters of `L2Builder` and the event pool. -/
structure L2State (Pool : Type) where
  L2Triggers_ : Nat → Nat
  BytesSentToStorage_ : Nat
  EventsSentToStorage_ : Nat
  pool : Pool

/-- The calls `L2Builder` makes, in program order, each with the event (or
fragment) it is made on. -/
inductive L2Call (Event : Type) where
  | deleteFragment (frag : LKREvent)
  | addLKREvent (event : Event) (frag : LKREvent)
  | compute (event : Event)
  | onNonZSuppressedLKrDataReceived (event : Event)
  | setL2Processed (event : Event) (L2Trigger : Nat)
  | SendEvent (event : Event)
  | FreeEvent (event : Event)

def L2Call.isCompute {Event : Type} : L2Call Event → Bool
  | .compute _ => true
  | _ => false

def L2Call.isOnNonZS {Event : Type} : L2Call Event → Bool
  | .onNonZSuppressedLKrDataReceived _ => true
  | _ => false

def L2Call.isTrigger {Event : Type} (c : L2Call Event) : Bool :=
  c.isCompute || c.isOnNonZS

def L2Call.isSetL2Processed {Event : Type} : L2Call Event → Bool
  | .setL2Processed _ _ => true
  | _ => false

def L2Call.isSendEvent {Event : Type} : L2Call Event → Bool
  | .SendEvent _ => true
  | _ => false

def L2Call.isFreeEvent {Event : Type} : L2Call Event → Bool
  | .FreeEvent _ => true
  | _ => false

/-- What a call of `processL2` leaves behind: the state, the event as it is
afterwards, and the calls made. -/
structure L2Result (Event Pool : Type) where
  st : L2State Pool
  event : Event
  calls : List (L2Call Event)

/-- The block that closes both branches of `processL2` (lines 62-67 and 74-79):
send the event if it is L2-accepted, count the verdict, free the event. -/
def L2Builder.storeAndFree {Event Pool : Type} (env : L2Env Event Pool)
    (st : L2State Pool) (event : Event) (L2Trigger : Nat) : L2Result Event Pool :=
  if env.isL2Accepted event then
    { st :=
        { L2Triggers_ := addAt st.L2Triggers_ L2Trigger 1
          BytesSentToStorage_ := wrap64 (st.BytesSentToStorage_ + env.SendEvent event)
          EventsSentToStorage_ := wrap64 (st.EventsSentToStorage_ + 1)
          pool := env.FreeEvent st.pool event }
      event := event
      calls := [.SendEvent event, .FreeEvent event] }
  else
    { st :=
        { st with
          L2Triggers_ := addAt st.L2Triggers_ L2Trigger 1
          pool := env.FreeEvent st.pool event }
      event := event
      calls := [.FreeEvent event] }

/-- `L2Builder::processL2`.  The verdict is a `uint8_t`. -/
def L2Builder.processL2 {Event Pool : Type} (env : L2Env Event Pool)
    (st : L2State Pool) (event : Event) : L2Result Event Pool :=
  if env.isWaitingForNonZSuppressedLKrData event = false then
    let r := env.compute event
    let L2Trigger := wrap8 r.1
    let event1 := env.setL2Processed r.2 L2Trigger
    if env.isWaitingForNonZSuppressedLKrData event1 = false then
      let f := L2Builder.storeAndFree env st event1 L2Trigger
      { f with calls := [.compute event, .setL2Processed r.2 L2Trigger] ++ f.calls }
    else
      { st := { st with pool := env.update st.pool event1 }
        event := event1
        calls := [.compute event, .setL2Processed r.2 L2Trigger] }
  else
    let r := env.onNonZSuppressedLKrDataReceived event
    let L2Trigger := wrap8 r.1
    let event1 := env.setL2Processed r.2 L2Trigger
    let f := L2Builder.storeAndFree env st event1 L2Trigger
    { f with
      calls := [.onNonZSuppressedLKrDataReceived event, .setL2Processed r.2 L2Trigger]
        ++ f.calls }

/-- `L2Builder::buildEvent`: the state afterwards and the calls made. -/
def L2Builder.buildEvent {Event Pool : Type} (env : L2Env Event Pool)
    (st : L2State Pool) (lkrEventFragment : LKREvent) :
    L2State Pool × List (L2Call Event) :=
  match env.GetEvent st.pool lkrEventFragment.eventNumber with
  | none => (st, [.deleteFragment lkrEventFragment])
  | some event =>
    let a := env.addLKREvent event lkrEventFragment
    if a.1 then
      let r := L2Builder.processL2 env st a.2
      (r.st, .addLKREvent event lkrEventFragment :: r.calls)
    else
      ({ st with pool := env.update st.pool a.2 }, [.addLKREvent event lkrEventFragment])

/-- The calls made by the successive `processL2` calls on one event, from its
first call up to and including the call that frees it.  Between two calls the
rest of the system may change the event (fragments are added, flags are set):
`between` lists these changes, one before each call. -/
def L2Builder.processL2Calls {Event Pool : Type} (env : L2Env Event Pool) :
    List (Event → Event) → L2State Pool → Event → List (L2Call Event)
  | [], _, _ => []
  | change :: between, st, event =>
    let r := L2Builder.processL2 env st (change event)
    if r.calls.any L2Call.isFreeEvent then r.calls
    else r.calls ++ L2Builder.processL2Calls env between r.st r.event

/-- The verdict byte returned by the trigger function that `processL2` invokes
on `event`: `compute` if the event is not waiting for non-zero-suppressed LKr
data, `onNonZSuppressedLKrDataReceived` if it is. -/
def L2Builder.verdict {Event Pool : Type} (env : L2Env Event Pool) (event : Event) : Nat :=
  if env.isWaitingForNonZSuppressedLKrData event = false then wrap8 (env.compute event).1
  else wrap8 (env.onNonZSuppressedLKrDataReceived event).1

/-- The event as `processL2` has it once the trigger function has run and its
verdict has been recorded with `setL2Processed`. -/
def L2Builder.processed {Event Pool : Type} (env : L2Env Event Pool) (event : Event) :
    Event :=
  if env.isWaitingForNonZSuppressedLKrData event = false then
    env.setL2Processed (env.compute event).2 (wrap8 (env.compute event).1)
  else
    env.setL2Processed (env.onNonZSuppressedLKrDataReceived event).2
      (wrap8 (env.onNonZSuppressedLKrDataReceived event).1)

/-- The first two calls of `processL2` on `event`: the trigger function chosen
by the waiting flag, then `setL2Processed` with its verdict. -/
def L2Builder.triggerCalls {Event Pool : Type} (env : L2Env Event Pool) (event : Event) :
    List (L2Call Event) :=
  if env.isWaitingForNonZSuppressedLKrData event = false then
    [.compute event, .setL2Processed (env.compute event).2 (wrap8 (env.compute event).1)]
  else
    [.onNonZSuppressedLKrDataReceived event,
      .setL2Processed (env.onNonZSuppressedLKrDataReceived event).2
        (wrap8 (env.onNonZSuppressedLKrDataReceived event).1)]

/-- Whether a call of `processL2` on `event` reaches one of the two closing
blocks: the event was waiting for non-zero-suppressed LKr data at entry, or it
is not waiting once `compute` has run and the verdict is recorded. -/
def L2Builder.completes {Event Pool : Type} (env : L2Env Event Pool) (event : Event) :
    Bool :=
  env.isWaitingForNonZSuppressedLKrData event
    || !env.isWaitingForNonZSuppressedLKrData (L2Builder.processed env event)

/-- What happens to the state of `L2Builder` over time: a call of `buildEvent`,
a call of `processL2`, or a change the rest of the system makes to the pool
between two such calls. -/
inductive L2Op (Event Pool : Type) where
  | buildEvent (lkrEventFragment : LKREvent)
  | processL2 (event : Event)
  | other (change : Pool → Pool)

/-- The state after one operation. -/
def L2Builder.step {Event Pool : Type} (env : L2Env Event Pool) (st : L2State Pool) :
    L2Op Event Pool → L2State Pool
  | .buildEvent lkrEventFragment => (L2Builder.buildEvent env st lkrEventFragment).1
  | .processL2 event => (L2Builder.processL2 env st event).st
  | .other change => { st with pool := change st.pool }

/-- The state after a finite sequence of operations. -/
def L2Builder.run {Event Pool : Type} (env : L2Env Event Pool) :
    L2State Pool → List (L2Op Event Pool) → L2State Pool
  | st, [] => st
  | st, op :: ops => L2Builder.run env (L2Builder.step env st op) ops

/-- The sum of `L2Triggers_[v]` over the 256 verdict bytes `v`. -/
def L2State.verdictsCounted {Pool : Type} (st : L2State Pool) : Nat :=
  ∑ v ∈ Finset.range 256, st.L2Triggers_ v

/-! ## Sample inputs

Concrete configurations and frames on which the definitions above are evaluated. -/

/-- A configuration of `HandleFrameTask` in which the L0 constructor answers
`l0` and the calorimeter constructor `lkr` for every datagram, and no IP
fragment completes a datagram. -/
def sampleFrameEnv (l0 : Except MEPError MEP) (lkr : Except MEPError LKRMEP) : FrameEnv :=
  { L0_Port := 58913
    CREAM_Port := 58915
    STRAW_PORT := 58916
    MyIP := 167772161
    SOURCE_ID_LKr := 36
    newMEP := fun _ _ => l0
    newLKRMEP := fun _ _ => lkr
    addFragment := fun _ => none }

/-- A 60-byte UDP frame for this host, carrying 18 bytes of UDP payload to
`destPort`. -/
def sampleFrame (destPort : Nat) : DataContainer :=
  { hdr :=
      { ether_type := ETHERTYPE_IP
        protocol := IPPROTO_UDP
        daddr := 167772161
        tot_len := 46
        udp_len := 26
        udp_dest := destPort
        isFragment := false }
    length := 60
    finishedBurstID := 10 }

/-- The first fragment of a larger IP datagram: it declares 1500 bytes, 60 were
captured. -/
def sampleFirstFragment : DataContainer :=
  { hdr :=
      { ether_type := ETHERTYPE_IP
        protocol := IPPROTO_UDP
        daddr := 167772161
        tot_len := 1500
        udp_len := 1480
        udp_dest := 58913
        isFragment := true }
    length := 60
    finishedBurstID := 0 }

/-- Burst 10 is running and its EOB has been received at time 0. -/
def sampleFarmState : FarmState :=
  { burst := HandleFrameTask.setNextBurstId ( HandleFrameTask.initialize 10 0) 11 0
    counters := PacketHandler.Initialize }

/-- A configuration of `PacketHandler` with one event builder whose sockets
accept every fragment; an EOB frame is 60 bytes, so the EOB record is 18 bytes. -/
def samplePacketEnv : PacketEnv :=
  { L0_Port := 58913
    CREAM_Port := 58915
    EOB_BROADCAST_PORT := 14162
    NUMBER_OF_EBS := 1
    SOURCE_ID_LKr := 36
    sizeof_EOB_FULL_FRAME := 60
    newMEP := fun _ _ => .error .NA62Error
    newLKRMEP := fun _ _ => .error .NA62Error
    sendL0 := fun _ _ => true
    sendLKr := fun _ _ => true }

/-- A poll that finds the ring empty while no MRP is waiting to be sent. -/
def idlePoll : PollInput :=
  { result := 0, frame := sampleFrame 0, DoSendMRP := false, now := 0 }

/-- An event reduced to what `L2Builder` looks at. -/
structure SampleEvent where
  eventNumber : Nat
  nonZSuppressedDataRequested : Bool
  L2Trigger : Nat
  deriving DecidableEq, Repr

/-- A sample environment of `L2Builder`.  Both trigger functions return
`verdict`; `compute` requests non-zero-suppressed LKr data when `requestNonZS`
is set, which leaves the event waiting for it.  An event is L2-accepted when its
recorded verdict is not 0, every fragment completes its event, the storage
handler writes 100 bytes per event, and the pool (given by its capacity) serves
the event numbers below the capacity. -/
def sampleL2Env (verdict : Nat) (requestNonZS : Bool) : L2Env SampleEvent Nat :=
  { isWaitingForNonZSuppressedLKrData := fun e => e.nonZSuppressedDataRequested
    setL2Processed := fun e v => { e with L2Trigger := v }
    isL2Accepted := fun e => decide (0 < e.L2Trigger)
    addLKREvent := fun e _ => (true, e)
    compute := fun e =>
      (verdict, { e with nonZSuppressedDataRequested :=
        e.nonZSuppressedDataRequested || requestNonZS })
    onNonZSuppressedLKrDataReceived := fun e => (verdict, e)
    SendEvent := fun _ => 100
    GetEvent := fun capacity n => if n < capacity then some ⟨n, false, 0⟩ else none
    FreeEvent := fun pool _ => pool
    update := fun pool _ => pool }

/-- All counters at zero and a pool of 1024 events. -/
def sampleL2State : L2State Nat :=
  { L2Triggers_ := fun _ => 0
    BytesSentToStorage_ := 0
    EventsSentToStorage_ := 0
    pool := 1024 }

/-- Event 7, not waiting for non-zero-suppressed LKr data. -/
def sampleEvent : SampleEvent :=
  { eventNumber := 7, nonZSuppressedDataRequested := false, L2Trigger := 0 }

/-- An L0 MEP of source 4 whose first event number is 3, with two fragments. -/
def sampleMEP : MEP :=
  { sourceID := 4, firstEventNum := 3, events := [⟨3, 16⟩, ⟨4, 16⟩] }

end na62

/-! # Theorems -/

namespace na62

/-! ## Burst-ID advance -/

/-- The floating-point guard of the burst-ID advance holds exactly when more
than 10^9 ns (one second) have elapsed since the EOB timer was started. -/
theorem eobLongEnoughAgo_iff (b : BurstState) (now : Int) :
    eobLongEnoughAgo b now = true ↔ 1000000000 < now - b.eobFrameReceivedTime_ := by
  unfold eobLongEnoughAgo elapsedWall
  rw [decide_eq_true_iff, gt_iff_lt, lt_div_iff₀ (by norm_num : (0 : ℚ) < 1000000)]
  have h : (1000 : ℚ) * 1000000 = ((1000000000 : Int) : ℚ) := by norm_num
  rw [h, Int.cast_lt]

/-- What `advanceBurstID` does to the two burst IDs. -/
theorem advanceBurstID_spec (b : BurstState) (firstEventNum : Nat) (now : Int) :
    (advanceBurstID b firstEventNum now).currentBurstID_ =
        (if b.nextBurstID_ ≠ b.currentBurstID_ ∧ firstEventNum < 1000
            ∧ 1000000000 < now - b.eobFrameReceivedTime_
          then b.nextBurstID_ else b.currentBurstID_)
      ∧ (advanceBurstID b firstEventNum now).nextBurstID_ = b.nextBurstID_ := by
  unfold advanceBurstID
  simp only [eobLongEnoughAgo_iff]
  split_ifs <;> simp

/-- How `execute` reduces for a frame that passes the three checks. -/
theorem execute_of_checks (env : FrameEnv) (st : FarmState) (now : Int)
    (container : DataContainer)
    (hip : container.hdr.ether_type = ETHERTYPE_IP)
    (hudp : container.hdr.protocol = IPPROTO_UDP)
    (hcheck : HandleFrameTask.checkFrame container.hdr container.length = true)
    (hdst : env.MyIP = container.hdr.daddr) :
    HandleFrameTask.execute env st now container =
      match HandleFrameTask.reassembled env container with
      | none => (st, [])
      | some datagram => HandleFrameTask.dispatch env st now datagram := by
  unfold HandleFrameTask.execute
  simp [hip, hudp, hcheck, hdst]

/-- C1. Burst-ID advance in `HandleFrameTask::execute`: for every pair of burst
IDs, every time of ingress and every frame that reaches the L0 branch and
parses to an L0 MEP, `currentBurstID_` afterwards is `nextBurstID_` if the two
differed, the first event number of the MEP is below 1000 and more than one
second (10^9 ns) has elapsed since the EOB timer was started; otherwise it is
unchanged.  `nextBurstID_` is never changed. -/
theorem execute_advances_burstID (env : FrameEnv) (st : FarmState) (now : Int)
    (container datagram : DataContainer) (mep : MEP)
    (hip : container.hdr.ether_type = ETHERTYPE_IP)
    (hudp : container.hdr.protocol = IPPROTO_UDP)
    (hcheck : HandleFrameTask.checkFrame container.hdr container.length = true)
    (hdst : env.MyIP = container.hdr.daddr)
    (hdatagram : HandleFrameTask.reassembled env container = some datagram)
    (hport : datagram.hdr.udp_dest = env.L0_Port)
    (hmep : env.newMEP datagram (udpDataLength datagram.hdr) = .ok mep) :
    (HandleFrameTask.execute env st now container).1.burst.currentBurstID_ =
        (if st.burst.nextBurstID_ ≠ st.burst.currentBurstID_ ∧ mep.firstEventNum < 1000
            ∧ 1000000000 < now - st.burst.eobFrameReceivedTime_
          then st.burst.nextBurstID_ else st.burst.currentBurstID_)
      ∧ (HandleFrameTask.execute env st now container).1.burst.nextBurstID_ =
        st.burst.nextBurstID_ := by
  rw [execute_of_checks env st now container hip hudp hcheck hdst, hdatagram]
  simp only [HandleFrameTask.dispatch, hport, if_true, hmep]
  exact advanceBurstID_spec st.burst mep.firstEventNum now

/-- The scenario of the specification: current burst 10, EOB for burst 10
received (next burst 11), an L0 MEP with first event number 3 ingested 1.5 s
later: the current burst ID becomes 11 and the next one stays 11. -/
theorem execute_advances_burstID_witness :
    (HandleFrameTask.execute (sampleFrameEnv (.ok sampleMEP) (.ok ⟨[]⟩)) sampleFarmState
        1500000000 (sampleFrame 58913)).1.burst.currentBurstID_ = 11
      ∧ (HandleFrameTask.execute (sampleFrameEnv (.ok sampleMEP) (.ok ⟨[]⟩)) sampleFarmState
        1500000000 (sampleFrame 58913)).1.burst.nextBurstID_ = 11 := by
  have h := execute_advances_burstID (sampleFrameEnv (.ok sampleMEP) (.ok ⟨[]⟩))
    sampleFarmState 1500000000 (sampleFrame 58913) (sampleFrame 58913) sampleMEP
    rfl rfl (by decide) rfl rfl rfl rfl
  simpa [sampleFarmState, sampleMEP, HandleFrameTask.setNextBurstId,
    HandleFrameTask.initialize, wrap32] using h

/-! ## Frame check -/

/-- C8, the claim as stated fails on an IP fragment: the sample fragment declares
1500 bytes, so 1514 with the ethernet header, against 60 captured bytes, and
`HandleFrameTask::checkFrame` returns true. -/
theorem checkFrame_accepts_truncated_fragment :
    sampleFirstFragment.hdr.tot_len + sizeof_ether_header > sampleFirstFragment.length
      ∧ HandleFrameTask.checkFrame sampleFirstFragment.hdr sampleFirstFragment.length
        = true := by
  decide

/-- C8, amended. For every frame header that is not an IP fragment and every
captured length, `HandleFrameTask::checkFrame` returns false whenever the
declared IP total length plus the ethernet header size (14) exceeds the captured
length; `PacketHandler::checkFrame`, which has no fragment exception, returns
false for such lengths on every header, whether or not it is a fragment. -/
theorem checkFrame_rejects_truncated (hdr : UDP_HDR) (length : Nat)
    (hlen : hdr.tot_len + sizeof_ether_header > length) :
    (hdr.isFragment = false → HandleFrameTask.checkFrame hdr length = false)
      ∧ PacketHandler.checkFrame hdr length = false := by
  have hne : hdr.tot_len + sizeof_ether_header ≠ length := Nat.ne_of_gt hlen
  constructor
  · intro hfrag
    unfold HandleFrameTask.checkFrame
    simp [hfrag, hne, hlen]
  · unfold PacketHandler.checkFrame
    simp [hne, hlen]

/-- A whole (unfragmented) frame declaring 1500 bytes of which 60 were captured
is rejected by both frame checks, and `PacketHandler::checkFrame` also rejects
the sample fragment with the same lengths. -/
theorem checkFrame_rejects_truncated_witness :
    HandleFrameTask.checkFrame { sampleFirstFragment.hdr with isFragment := false } 60 = false
      ∧ PacketHandler.checkFrame { sampleFirstFragment.hdr with isFragment := false } 60
        = false
      ∧ PacketHandler.checkFrame sampleFirstFragment.hdr 60 = false :=
  ⟨(checkFrame_rejects_truncated { sampleFirstFragment.hdr with isFragment := false } 60
      (by decide)).1 rfl,
    (checkFrame_rejects_truncated { sampleFirstFragment.hdr with isFragment := false } 60
      (by decide)).2,
    (checkFrame_rejects_truncated sampleFirstFragment.hdr 60 (by decide)).2⟩

/-! ## MEPs with an unknown source ID -/

/-- C9. For every frame whose datagram is on the L0 port or on the CREAM port
and whose MEP constructor throws (`e` is any of the caught exceptions, among
them `UnknownSourceIDFound` and `UnknownCREAMSourceIDFound`),
`HandleFrameTask::execute` hands no fragment to `L1Builder::buildEvent` or
`L2Builder::buildEvent`, and leaves the burst IDs and the counters as they
were. -/
theorem execute_drops_MEP_on_unknown_source (env : FrameEnv) (st : FarmState) (now : Int)
    (container datagram : DataContainer) (e : MEPError)
    (hdatagram : HandleFrameTask.reassembled env container = some datagram)
    (hfail :
      (datagram.hdr.udp_dest = env.L0_Port
          ∧ env.newMEP datagram (udpDataLength datagram.hdr) = .error e)
        ∨ (datagram.hdr.udp_dest ≠ env.L0_Port ∧ datagram.hdr.udp_dest = env.CREAM_Port
          ∧ env.newLKRMEP datagram (udpDataLength datagram.hdr) = .error e)) :
    (HandleFrameTask.execute env st now container).2.countP FrameCall.isBuildEvent = 0
      ∧ (HandleFrameTask.execute env st now container).1 = st := by
  have hdispatch :
      HandleFrameTask.dispatch env st now datagram = (st, [.deleteData datagram]) := by
    unfold HandleFrameTask.dispatch
    rcases hfail with ⟨hport, herr⟩ | ⟨hnot, hport, herr⟩
    · simp [hport, herr]
    · have hports : env.CREAM_Port ≠ env.L0_Port := hport ▸ hnot
      simp [hport, hports, herr]
  unfold HandleFrameTask.execute
  simp only [hdatagram, hdispatch]
  split_ifs <;> simp [FrameCall.isBuildEvent]

/-- An L0 frame that passes every check and whose MEP constructor throws
`UnknownSourceIDFound`: the frame is deleted, nothing is built. -/
theorem execute_drops_MEP_on_unknown_source_witness :
    HandleFrameTask.execute (sampleFrameEnv (.error .UnknownSourceIDFound) (.ok ⟨[]⟩))
          sampleFarmState 0 (sampleFrame 58913)
        = (sampleFarmState, [.deleteData (sampleFrame 58913)])
      ∧ (HandleFrameTask.execute (sampleFrameEnv (.error .UnknownSourceIDFound) (.ok ⟨[]⟩))
          sampleFarmState 0 (sampleFrame 58913)).2.countP FrameCall.isBuildEvent = 0 :=
  ⟨rfl, (execute_drops_MEP_on_unknown_source
    (sampleFrameEnv (.error .UnknownSourceIDFound) (.ok ⟨[]⟩)) sampleFarmState 0
    (sampleFrame 58913) (sampleFrame 58913) .UnknownSourceIDFound rfl (Or.inl ⟨rfl, rfl⟩)).1⟩

/-! ## EOB reception -/

/-- C2. EOB reception in `PacketHandler::processPacket`: for every UDP frame that
passes the frame check and is addressed to the EOB broadcast port (a port
distinct from the L0 and CREAM ports, which are tested first): if the UDP
payload length equals the EOB record size, `nextBurstID_` becomes
`finishedBurstID + 1` modulo 2^32 and the EOB timer is restarted at the time of
the call; if the length differs, the frame is deleted and `nextBurstID_` and the
timer are unchanged.  In both cases `currentBurstID_` is unchanged. -/
theorem processPacket_EOB (env : PacketEnv) (st : FarmState) (now : Int)
    (container : DataContainer)
    (hip : container.hdr.ether_type = ETHERTYPE_IP)
    (hudp : container.hdr.protocol = IPPROTO_UDP)
    (hcheck : PacketHandler.checkFrame container.hdr container.length = true)
    (hport : container.hdr.udp_dest = env.EOB_BROADCAST_PORT)
    (hL0 : env.EOB_BROADCAST_PORT ≠ env.L0_Port)
    (hCREAM : env.EOB_BROADCAST_PORT ≠ env.CREAM_Port) :
    (udpDataLength container.hdr = eobRecordSize env →
        (PacketHandler.processPacket env st now container).st.burst.nextBurstID_
            = (container.finishedBurstID + 1) % 2 ^ 32
          ∧ (PacketHandler.processPacket env st now container).st.burst.eobFrameReceivedTime_
            = now)
      ∧ (udpDataLength container.hdr ≠ eobRecordSize env →
        PacketCall.deleteData container
            ∈ (PacketHandler.processPacket env st now container).calls
          ∧ (PacketHandler.processPacket env st now container).st.burst.nextBurstID_
            = st.burst.nextBurstID_
          ∧ (PacketHandler.processPacket env st now container).st.burst.eobFrameReceivedTime_
            = st.burst.eobFrameReceivedTime_)
      ∧ (PacketHandler.processPacket env st now container).st.burst.currentBurstID_
        = st.burst.currentBurstID_ := by
  have hred : PacketHandler.processPacket env st now container =
      if udpDataLength container.hdr ≠ eobRecordSize env then
        ⟨true, st, [.logUnrecognizableEOB, .deleteData container]⟩
      else
        ⟨true,
          ⟨EventBuilder.SetNextBurstID st.burst (wrap32 (container.finishedBurstID + 1)) now,
            st.counters⟩,
          [.logEOB (wrap32 (container.finishedBurstID + 1))]⟩ := by
    unfold PacketHandler.processPacket
    simp [hip, hudp, hcheck, hport, hL0, hCREAM]
  rw [hred]
  by_cases hlen : udpDataLength container.hdr = eobRecordSize env
  · simp [hlen, EventBuilder.SetNextBurstID, wrap32]
  · simp [hlen]

/-- An EOB frame of the right size announcing the end of burst 10, received at
time 7 while burst 10 is current: the next burst ID becomes 11, the timer is
restarted at 7, the current burst ID stays 10. -/
theorem processPacket_EOB_witness :
    ((PacketHandler.processPacket samplePacketEnv
          { burst := HandleFrameTask.initialize 10 0, counters := PacketHandler.Initialize }
          7 (sampleFrame 14162)).st.burst.nextBurstID_ = 11
        ∧ (PacketHandler.processPacket samplePacketEnv
          { burst := HandleFrameTask.initialize 10 0, counters := PacketHandler.Initialize }
          7 (sampleFrame 14162)).st.burst.eobFrameReceivedTime_ = 7)
      ∧ (PacketHandler.processPacket samplePacketEnv
          { burst := HandleFrameTask.initialize 10 0, counters := PacketHandler.Initialize }
          7 (sampleFrame 14162)).st.burst.currentBurstID_ = 10 :=
  have h := processPacket_EOB samplePacketEnv
    { burst := HandleFrameTask.initialize 10 0, counters := PacketHandler.Initialize }
    7 (sampleFrame 14162) rfl rfl (by decide) rfl (by decide) (by decide)
  ⟨h.1 (by decide), h.2.2⟩

/-! ## Backoff of the polling loop -/

/-- C7, the claim as stated fails: fifteen polls in a row that find nothing to
receive and nothing to send make the loop sleep 1, 2, 4, ... microseconds, and
the fifteenth sleep lasts 16384 microseconds, more than 10 ms. -/
theorem thread_sleeps_longer_than_10ms :
    (PacketHandler.thread samplePacketEnv (ThreadState.init sampleFarmState)
        (List.replicate 15 idlePoll)).slept
      = [1, 2, 4, 8, 16, 32, 64, 128, 256, 512, 1024, 2048, 4096, 8192, 16384]
      ∧ 10000 < 16384 := by
  constructor
  · rfl
  · decide

/-- One iteration of the polling loop keeps `sleepMicros` a power of two of at
most 2^14 and every logged sleep at most 16384. -/
theorem loopBody_backoffInv (env : PacketEnv) (s : ThreadState) (inp : PollInput)
    (h : BackoffInv s) : BackoffInv (PacketHandler.loopBody env s inp).1 := by
  obtain ⟨⟨k, hk, hs⟩, hslept⟩ := h
  have hle : s.sleepMicros ≤ 16384 := by
    rw [hs]
    calc 2 ^ k ≤ 2 ^ 14 := Nat.pow_le_pow_right (by norm_num) hk
      _ = 16384 := by norm_num
  unfold PacketHandler.loopBody
  by_cases hres : inp.result = 1
  · simp only [hres, if_true]
    exact ⟨⟨0, by norm_num, rfl⟩, hslept⟩
  · simp only [hres, if_false]
    cases hq : s.dataContainers with
    | nil =>
      by_cases hmrp : inp.DoSendMRP = true
      · simp only [hmrp, if_true]
        exact ⟨⟨0, by norm_num, rfl⟩, hslept⟩
      · have hlog : ∀ t ∈ s.slept ++ [s.sleepMicros], t ≤ 16384 := by
          intro t ht
          rcases List.mem_append.mp ht with ht | ht
          · exact hslept t ht
          · rw [List.mem_singleton.mp ht]
            exact hle
        simp only [hmrp]
        by_cases hlt : s.sleepMicros < 10000
        · simp only [hlt, if_true]
          refine ⟨⟨k + 1, ?_, ?_⟩, hlog⟩
          · by_contra hk14
            have hk14 : 14 ≤ k := by omega
            have : 2 ^ 14 ≤ 2 ^ k := Nat.pow_le_pow_right (by norm_num) hk14
            rw [hs] at hlt
            omega
          · show s.sleepMicros * 2 = 2 ^ (k + 1)
            rw [hs, pow_succ]
        · simp only [hlt, if_false]
          exact ⟨⟨k, hk, hs⟩, hlog⟩
    | cons front rest =>
      exact ⟨⟨k, hk, hs⟩, hslept⟩

/-- The invariant holds in every state the polling loop reaches. -/
theorem thread_backoffInv (env : PacketEnv) (inps : List PollInput) :
    ∀ s : ThreadState, BackoffInv s → BackoffInv (PacketHandler.thread env s inps) := by
  induction inps with
  | nil => intro s h; exact h
  | cons inp inps ih =>
    intro s h
    have h1 := loopBody_backoffInv env s inp h
    unfold PacketHandler.thread
    by_cases hcont : (PacketHandler.loopBody env s inp).2 = true
    · simp only [hcont, if_true]
      exact ih _ h1
    · simp only [hcont]
      exact h1

/-- C7, amended. In every state the polling loop reaches, for every sequence of
poll results, every interval the loop has slept and the current `sleepMicros`
are at most 16384 microseconds (the first power of two that is not below 10000),
and after every successful receive `sleepMicros` is 1. -/
theorem thread_backoff_bound (env : PacketEnv) (farm : FarmState) (inps : List PollInput) :
    (∀ t ∈ (PacketHandler.thread env (ThreadState.init farm) inps).slept, t ≤ 16384)
      ∧ (PacketHandler.thread env (ThreadState.init farm) inps).sleepMicros ≤ 16384
      ∧ ∀ (s : ThreadState) (frame : DataContainer) (mrp : Bool) (now : Int),
          (PacketHandler.loopBody env s ⟨1, frame, mrp, now⟩).1.sleepMicros = 1 := by
  have hinit : BackoffInv (ThreadState.init farm) :=
    ⟨⟨0, by norm_num, rfl⟩, by intro t ht; simp [ThreadState.init] at ht⟩
  obtain ⟨⟨k, hk, hs⟩, hslept⟩ := thread_backoffInv env inps _ hinit
  refine ⟨hslept, ?_, ?_⟩
  · rw [hs]
    calc 2 ^ k ≤ 2 ^ 14 := Nat.pow_le_pow_right (by norm_num) hk
      _ = 16384 := by norm_num
  · intro s frame mrp now
    simp [PacketHandler.loopBody]

/-! ## L2 builder -/

/-- The closing block hands back the event it was given. -/
theorem storeAndFree_event {Event Pool : Type} (env : L2Env Event Pool)
    (st : L2State Pool) (event : Event) (L2Trigger : Nat) :
    (L2Builder.storeAndFree env st event L2Trigger).event = event := by
  unfold L2Builder.storeAndFree
  split <;> rfl

/-- A call of `processL2` that reaches a closing block: the state and calls are
those of `storeAndFree` on the processed event, after the trigger call and
`setL2Processed`. -/
theorem processL2_of_completes {Event Pool : Type} (env : L2Env Event Pool)
    (st : L2State Pool) (event : Event) (h : L2Builder.completes env event = true) :
    (L2Builder.processL2 env st event).st
        = (L2Builder.storeAndFree env st (L2Builder.processed env event)
            (L2Builder.verdict env event)).st
      ∧ (L2Builder.processL2 env st event).event = L2Builder.processed env event
      ∧ (L2Builder.processL2 env st event).calls
          = L2Builder.triggerCalls env event ++ (L2Builder.storeAndFree env st
              (L2Builder.processed env event) (L2Builder.verdict env event)).calls := by
  unfold L2Builder.completes L2Builder.processed at h
  unfold L2Builder.processL2 L2Builder.processed L2Builder.verdict L2Builder.triggerCalls
  by_cases hw : env.isWaitingForNonZSuppressedLKrData event = true
  · simp only [hw, Bool.true_eq_false, if_false]
    exact ⟨trivial, storeAndFree_event _ _ _ _, trivial⟩
  · simp only [Bool.not_eq_true] at hw
    simp only [hw, if_true, Bool.false_or, Bool.not_eq_true'] at h
    simp only [hw, if_true, h]
    exact ⟨trivial, storeAndFree_event _ _ _ _, trivial⟩

/-- A call of `processL2` whose `compute` leaves the event waiting: nothing but
the trigger call and `setL2Processed` happens, and no counter moves. -/
theorem processL2_of_not_completes {Event Pool : Type} (env : L2Env Event Pool)
    (st : L2State Pool) (event : Event) (h : L2Builder.completes env event = false) :
    L2Builder.processL2 env st event
      = { st := { st with pool := env.update st.pool (L2Builder.processed env event) }
          event := L2Builder.processed env event
          calls := L2Builder.triggerCalls env event } := by
  unfold L2Builder.completes at h
  simp only [Bool.or_eq_false_iff, Bool.not_eq_false'] at h
  obtain ⟨hw, hw1⟩ := h
  unfold L2Builder.processed at hw1 ⊢
  unfold L2Builder.triggerCalls
  simp only [hw, if_true] at hw1 ⊢
  unfold L2Builder.processL2
  simp [hw, hw1]

/-- The calls of the closing block: `SendEvent` for an accepted event, then
`FreeEvent`. -/
theorem storeAndFree_calls {Event Pool : Type} (env : L2Env Event Pool)
    (st : L2State Pool) (event : Event) (L2Trigger : Nat) :
    (L2Builder.storeAndFree env st event L2Trigger).calls
      = if env.isL2Accepted event = true then [.SendEvent event, .FreeEvent event]
        else [.FreeEvent event] := by
  unfold L2Builder.storeAndFree
  split <;> rfl

/-- The closing block counts the verdict and frees the event. -/
theorem storeAndFree_L2Triggers {Event Pool : Type} (env : L2Env Event Pool)
    (st : L2State Pool) (event : Event) (L2Trigger : Nat) :
    (L2Builder.storeAndFree env st event L2Trigger).st.L2Triggers_
        = addAt st.L2Triggers_ L2Trigger 1
      ∧ (L2Builder.storeAndFree env st event L2Trigger).st.pool
        = env.FreeEvent st.pool event := by
  unfold L2Builder.storeAndFree
  split <;> exact ⟨rfl, rfl⟩

/-- The storage counters after the closing block. -/
theorem storeAndFree_storage {Event Pool : Type} (env : L2Env Event Pool)
    (st : L2State Pool) (event : Event) (L2Trigger : Nat) :
    (L2Builder.storeAndFree env st event L2Trigger).st.EventsSentToStorage_
        = (if env.isL2Accepted event = true then wrap64 (st.EventsSentToStorage_ + 1)
          else st.EventsSentToStorage_)
      ∧ (L2Builder.storeAndFree env st event L2Trigger).st.BytesSentToStorage_
        = (if env.isL2Accepted event = true then
            wrap64 (st.BytesSentToStorage_ + env.SendEvent event)
          else st.BytesSentToStorage_) := by
  unfold L2Builder.storeAndFree
  split <;> exact ⟨rfl, rfl⟩

/-- The trigger call and `setL2Processed` are neither `SendEvent` nor
`FreeEvent`, and exactly one of them is a trigger entry point. -/
theorem triggerCalls_counts {Event Pool : Type} (env : L2Env Event Pool) (event : Event) :
    (L2Builder.triggerCalls env event).countP L2Call.isSendEvent = 0
      ∧ (L2Builder.triggerCalls env event).countP L2Call.isFreeEvent = 0
      ∧ (L2Builder.triggerCalls env event).countP L2Call.isTrigger = 1
      ∧ ((L2Builder.triggerCalls env event).countP L2Call.isCompute = 0
        ∨ (L2Builder.triggerCalls env event).countP L2Call.isOnNonZS = 0) := by
  unfold L2Builder.triggerCalls
  split <;>
    simp [List.countP_cons, L2Call.isSendEvent, L2Call.isFreeEvent, L2Call.isTrigger,
      L2Call.isCompute, L2Call.isOnNonZS]

/-- The two calls `triggerCalls` stands for, by the waiting flag at entry. -/
theorem triggerCalls_eq {Event Pool : Type} (env : L2Env Event Pool) (event : Event) :
    (env.isWaitingForNonZSuppressedLKrData event = false →
        L2Builder.triggerCalls env event
          = [.compute event,
              .setL2Processed (env.compute event).2 (wrap8 (env.compute event).1)])
      ∧ (env.isWaitingForNonZSuppressedLKrData event = true →
        L2Builder.triggerCalls env event
          = [.onNonZSuppressedLKrDataReceived event,
              .setL2Processed (env.onNonZSuppressedLKrDataReceived event).2
                (wrap8 (env.onNonZSuppressedLKrDataReceived event).1)]) := by
  unfold L2Builder.triggerCalls
  constructor <;> intro h <;> simp [h]

/-! ### One entry point per event -/

/-- C4, the claim as stated fails: `compute` returns verdict 9 for event 7 and
requests non-zero-suppressed LKr data; the call then returns without counting
the verdict (`L2Triggers_[9]` stays 0) and without freeing the event. -/
theorem processL2_keeps_event_waiting_for_nonZS :
    L2Builder.verdict (sampleL2Env 9 true) sampleEvent = 9
      ∧ (L2Builder.processL2 (sampleL2Env 9 true) sampleL2State sampleEvent).st.L2Triggers_ 9
        = 0
      ∧ (L2Builder.processL2 (sampleL2Env 9 true) sampleL2State sampleEvent).calls.countP
        L2Call.isFreeEvent = 0 := by
  refine ⟨rfl, rfl, rfl⟩

/-- C4, amended. For every call of `processL2` on an event that was waiting for
non-zero-suppressed LKr data at entry, or that `compute` does not leave waiting
for it, with `v` the verdict byte returned by the invoked trigger function: the
call adds 1 to the 64-bit counter `L2Triggers_[v]` (exactly 1 unless the counter
wraps), leaves every other entry unchanged, and calls `EventPool::FreeEvent` on
the event exactly once, as its last call. -/
theorem processL2_counts_verdict_and_frees {Event Pool : Type} (env : L2Env Event Pool)
    (st : L2State Pool) (event : Event) (hdone : L2Builder.completes env event = true) :
    (L2Builder.processL2 env st event).st.L2Triggers_ (L2Builder.verdict env event)
        = (st.L2Triggers_ (L2Builder.verdict env event) + 1) % 2 ^ 64
      ∧ (st.L2Triggers_ (L2Builder.verdict env event) + 1 < 2 ^ 64 →
          (L2Builder.processL2 env st event).st.L2Triggers_ (L2Builder.verdict env event)
            = st.L2Triggers_ (L2Builder.verdict env event) + 1)
      ∧ (∀ j, j ≠ L2Builder.verdict env event →
          (L2Builder.processL2 env st event).st.L2Triggers_ j = st.L2Triggers_ j)
      ∧ (L2Builder.processL2 env st event).calls.countP L2Call.isFreeEvent = 1
      ∧ (L2Builder.processL2 env st event).calls.getLast?
          = some (.FreeEvent (L2Builder.processed env event))
      ∧ (L2Builder.processL2 env st event).st.pool
          = env.FreeEvent st.pool (L2Builder.processed env event) := by
  obtain ⟨hst, _, hcalls⟩ := processL2_of_completes env st event hdone
  obtain ⟨htrig, hpool⟩ := storeAndFree_L2Triggers env st
    (L2Builder.processed env event) (L2Builder.verdict env event)
  obtain ⟨_, hfree, _, _⟩ := triggerCalls_counts env event
  rw [hst, htrig, hpool, hcalls, storeAndFree_calls]
  refine ⟨by simp [addAt, wrap64], ?_, ?_, ?_, ?_, rfl⟩
  · intro hlt
    simp only [addAt, wrap64, if_true]
    exact Nat.mod_eq_of_lt hlt
  · intro j hj
    simp [addAt, hj]
  · split <;> simp [List.countP_append, hfree, List.countP_cons, L2Call.isFreeEvent]
  · split <;> simp [List.getLast?_append]

/-- With a `compute` that returns verdict 9 and requests nothing, the call on
event 7 takes `L2Triggers_[9]` from 0 to 1 and frees the event once. -/
theorem processL2_counts_verdict_and_frees_witness :
    (L2Builder.processL2 (sampleL2Env 9 false) sampleL2State sampleEvent).st.L2Triggers_ 9
        = 1
      ∧ (L2Builder.processL2 (sampleL2Env 9 false) sampleL2State sampleEvent).calls.countP
        L2Call.isFreeEvent = 1 :=
  have h := processL2_counts_verdict_and_frees (sampleL2Env 9 false) sampleL2State
    sampleEvent rfl
  ⟨h.1, h.2.2.2.1⟩

/-! ### Storage -/

/-- C5, the claim as stated fails: `compute` returns verdict 9 for event 7 and
requests non-zero-suppressed LKr data.  Once the verdict is recorded the event is
L2-accepted, yet `SendEvent` is not called and both storage counters stay 0. -/
theorem processL2_accepted_event_not_sent :
    (sampleL2Env 9 true).isL2Accepted (L2Builder.processed (sampleL2Env 9 true) sampleEvent)
        = true
      ∧ (L2Builder.processL2 (sampleL2Env 9 true) sampleL2State sampleEvent).calls.countP
        L2Call.isSendEvent = 0
      ∧ (L2Builder.processL2 (sampleL2Env 9 true) sampleL2State
        sampleEvent).st.EventsSentToStorage_ = 0
      ∧ (L2Builder.processL2 (sampleL2Env 9 true) sampleL2State
        sampleEvent).st.BytesSentToStorage_ = 0 := by
  refine ⟨rfl, rfl, rfl, rfl⟩

/-- C5, amended. For every call of `processL2`, with the event taken after the
verdict has been recorded with `setL2Processed`: if the event is L2-accepted and
the call reaches a closing block (the event was waiting for non-zero-suppressed
LKr data at entry, or `compute` did not leave it waiting), the event is handed to
`StorageHandler::SendEvent` exactly once, the 64-bit counter
`EventsSentToStorage_` grows by 1 and `BytesSentToStorage_` by the value
`SendEvent` returned; if the event is not L2-accepted, `SendEvent` is not called
and both counters are unchanged. -/
theorem processL2_sends_accepted_event {Event Pool : Type} (env : L2Env Event Pool)
    (st : L2State Pool) (event : Event) :
    (env.isL2Accepted (L2Builder.processed env event) = true
        ∧ L2Builder.completes env event = true →
      (L2Builder.processL2 env st event).calls.countP L2Call.isSendEvent = 1
        ∧ L2Call.SendEvent (L2Builder.processed env event)
          ∈ (L2Builder.processL2 env st event).calls
        ∧ (L2Builder.processL2 env st event).st.EventsSentToStorage_
          = (st.EventsSentToStorage_ + 1) % 2 ^ 64
        ∧ (L2Builder.processL2 env st event).st.BytesSentToStorage_
          = (st.BytesSentToStorage_ + env.SendEvent (L2Builder.processed env event))
            % 2 ^ 64)
      ∧ (env.isL2Accepted (L2Builder.processed env event) = false →
        (L2Builder.processL2 env st event).calls.countP L2Call.isSendEvent = 0
          ∧ (L2Builder.processL2 env st event).st.EventsSentToStorage_
            = st.EventsSentToStorage_
          ∧ (L2Builder.processL2 env st event).st.BytesSentToStorage_
            = st.BytesSentToStorage_) := by
  obtain ⟨hsend, _, _, _⟩ := triggerCalls_counts env event
  obtain ⟨hev, hby⟩ := storeAndFree_storage env st
    (L2Builder.processed env event) (L2Builder.verdict env event)
  constructor
  · rintro ⟨hacc, hdone⟩
    obtain ⟨hst, _, hcalls⟩ := processL2_of_completes env st event hdone
    rw [hst, hev, hby, hcalls, storeAndFree_calls]
    simp [hacc, List.countP_append, hsend, List.countP_cons, L2Call.isSendEvent, wrap64]
  · intro hrej
    by_cases hdone : L2Builder.completes env event = true
    · obtain ⟨hst, _, hcalls⟩ := processL2_of_completes env st event hdone
      rw [hst, hev, hby, hcalls, storeAndFree_calls]
      simp [hrej, List.countP_append, hsend, List.countP_cons, L2Call.isSendEvent]
    · simp only [Bool.not_eq_true] at hdone
      rw [processL2_of_not_completes env st event hdone]
      exact ⟨hsend, rfl, rfl⟩

/-- With a `compute` that returns verdict 9 and requests nothing, event 7 is
accepted and sent once: one event and 100 bytes are counted.  With verdict 0 the
event is rejected: nothing is sent or counted. -/
theorem processL2_sends_accepted_event_witness :
    ((L2Builder.processL2 (sampleL2Env 9 false) sampleL2State sampleEvent).calls.countP
          L2Call.isSendEvent = 1
        ∧ (L2Builder.processL2 (sampleL2Env 9 false) sampleL2State
          sampleEvent).st.EventsSentToStorage_ = 1
        ∧ (L2Builder.processL2 (sampleL2Env 9 false) sampleL2State
          sampleEvent).st.BytesSentToStorage_ = 100)
      ∧ (L2Builder.processL2 (sampleL2Env 0 false) sampleL2State sampleEvent).calls.countP
          L2Call.isSendEvent = 0
      ∧ (L2Builder.processL2 (sampleL2Env 0 false) sampleL2State
          sampleEvent).st.EventsSentToStorage_ = 0 :=
  have h9 := (processL2_sends_accepted_event (sampleL2Env 9 false) sampleL2State
    sampleEvent).1 ⟨rfl, rfl⟩
  have h0 := (processL2_sends_accepted_event (sampleL2Env 0 false) sampleL2State
    sampleEvent).2 rfl
  ⟨⟨h9.1, h9.2.2.1, h9.2.2.2⟩, h0.1, h0.2.1⟩

/-- Over the successive `processL2` calls on one event, up to the call that
frees it, `SendEvent` is called at most once. -/
theorem processL2Calls_sends_at_most_once {Event Pool : Type} (env : L2Env Event Pool)
    (between : List (Event → Event)) :
    ∀ (st : L2State Pool) (event : Event),
      (L2Builder.processL2Calls env between st event).countP L2Call.isSendEvent ≤ 1 := by
  induction between with
  | nil => intro st event; simp [L2Builder.processL2Calls]
  | cons change between ih =>
    intro st event
    obtain ⟨hsend, hfree, _, _⟩ := triggerCalls_counts env (change event)
    by_cases hdone : L2Builder.completes env (change event) = true
    · obtain ⟨_, _, hcalls⟩ := processL2_of_completes env st (change event) hdone
      have hany : (L2Builder.processL2 env st (change event)).calls.any L2Call.isFreeEvent
          = true := by
        rw [hcalls, storeAndFree_calls]
        split <;> simp [L2Call.isFreeEvent]
      simp only [L2Builder.processL2Calls, hany, if_true]
      rw [hcalls, storeAndFree_calls]
      split <;> simp [List.countP_append, hsend, List.countP_cons, L2Call.isSendEvent]
    · simp only [Bool.not_eq_true] at hdone
      have hany : (L2Builder.triggerCalls env (change event)).any L2Call.isFreeEvent
          = false := by
        rw [List.any_eq_false]
        intro c hc hfc
        have hpos := List.countP_pos_iff.mpr ⟨c, hc, hfc⟩
        omega
      simp only [L2Builder.processL2Calls,
        processL2_of_not_completes env st (change event) hdone, hany, Bool.false_eq_true,
        if_false, List.countP_append, hsend, Nat.zero_add]
      exact ih _ _

/-- C6. An event is submitted to storage at most once.  Every call of
`processL2` calls `StorageHandler::SendEvent` at most once, and a call that
calls `SendEvent` on an event calls `EventPool::FreeEvent` on that same event
right afterwards, as its last call, so that no event that was sent to storage
stays bound to its slot; over all the `processL2` calls made on an event until
it is freed, `SendEvent` is called at most once. -/
theorem processL2_sends_at_most_once_then_frees {Event Pool : Type}
    (env : L2Env Event Pool) (st : L2State Pool) (event : Event) :
    (L2Builder.processL2 env st event).calls.countP L2Call.isSendEvent ≤ 1
      ∧ (∀ e, L2Call.SendEvent e ∈ (L2Builder.processL2 env st event).calls →
          ∃ before, (L2Builder.processL2 env st event).calls
            = before ++ [.SendEvent e, .FreeEvent e])
      ∧ ∀ between : List (Event → Event),
          (L2Builder.processL2Calls env between st event).countP L2Call.isSendEvent ≤ 1 := by
  obtain ⟨hsend, _, _, _⟩ := triggerCalls_counts env event
  have hnot : ∀ e, L2Call.SendEvent e ∉ L2Builder.triggerCalls env event := by
    intro e he
    unfold L2Builder.triggerCalls at he
    split at he <;> simp at he
  refine ⟨?_, ?_, fun between => processL2Calls_sends_at_most_once env between st event⟩
  · by_cases hdone : L2Builder.completes env event = true
    · obtain ⟨_, _, hcalls⟩ := processL2_of_completes env st event hdone
      rw [hcalls, storeAndFree_calls]
      split <;> simp [List.countP_append, hsend, List.countP_cons, L2Call.isSendEvent]
    · simp only [Bool.not_eq_true] at hdone
      rw [processL2_of_not_completes env st event hdone]
      simp [hsend]
  · intro e he
    by_cases hdone : L2Builder.completes env event = true
    · obtain ⟨_, _, hcalls⟩ := processL2_of_completes env st event hdone
      rw [hcalls, storeAndFree_calls] at he ⊢
      rcases List.mem_append.mp he with he | he
      · exact absurd he (hnot e)
      · by_cases hacc : env.isL2Accepted (L2Builder.processed env event) = true
        · simp only [hacc, if_true] at he ⊢
          simp at he
          exact ⟨L2Builder.triggerCalls env event, by rw [he]⟩
        · simp [hacc] at he
    · simp only [Bool.not_eq_true] at hdone
      rw [processL2_of_not_completes env st event hdone] at he
      exact absurd he (hnot e)

/-! ### Fragments the pool cannot serve -/

/-- C10. For every LKr fragment for whose event number `EventPool::GetEvent`
returns null, `L2Builder::buildEvent` deletes the fragment and does nothing
else: no trigger function is invoked, `SendEvent` is not called, and
`L2Triggers_`, `BytesSentToStorage_` and `EventsSentToStorage_` (indeed the whole
state) are unchanged. -/
theorem buildEvent_drops_unserved_fragment {Event Pool : Type} (env : L2Env Event Pool)
    (st : L2State Pool) (lkrEventFragment : LKREvent)
    (hnull : env.GetEvent st.pool lkrEventFragment.eventNumber = none) :
    (L2Builder.buildEvent env st lkrEventFragment).2 = [.deleteFragment lkrEventFragment]
      ∧ (L2Builder.buildEvent env st lkrEventFragment).2.countP L2Call.isTrigger = 0
      ∧ (L2Builder.buildEvent env st lkrEventFragment).2.countP L2Call.isSendEvent = 0
      ∧ (L2Builder.buildEvent env st lkrEventFragment).1.L2Triggers_ = st.L2Triggers_
      ∧ (L2Builder.buildEvent env st lkrEventFragment).1.BytesSentToStorage_
        = st.BytesSentToStorage_
      ∧ (L2Builder.buildEvent env st lkrEventFragment).1.EventsSentToStorage_
        = st.EventsSentToStorage_
      ∧ (L2Builder.buildEvent env st lkrEventFragment).1 = st := by
  have h : L2Builder.buildEvent env st lkrEventFragment
      = (st, [.deleteFragment lkrEventFragment]) := by
    unfold L2Builder.buildEvent
    rw [hnull]
  rw [h]
  exact ⟨rfl, rfl, rfl, rfl, rfl, rfl, rfl⟩

/-- A fragment of event 5000 arriving at a pool of 1024 events is deleted and
nothing else happens. -/
theorem buildEvent_drops_unserved_fragment_witness :
    (L2Builder.buildEvent (sampleL2Env 9 false) sampleL2State ⟨5000, 64⟩).2
        = [.deleteFragment ⟨5000, 64⟩]
      ∧ (L2Builder.buildEvent (sampleL2Env 9 false) sampleL2State ⟨5000, 64⟩).1.L2Triggers_
        = sampleL2State.L2Triggers_ :=
  have h := buildEvent_drops_unserved_fragment (sampleL2Env 9 false) sampleL2State
    ⟨5000, 64⟩ (by decide)
  ⟨h.1, h.2.2.2.1⟩

/-! ### Choice of the L2 entry point -/

/-- The calls of `processL2`: the trigger call, `setL2Processed`, and then calls
among which there is no trigger entry point. -/
theorem processL2_calls {Event Pool : Type} (env : L2Env Event Pool)
    (st : L2State Pool) (event : Event) :
    ∃ rest, (L2Builder.processL2 env st event).calls
        = L2Builder.triggerCalls env event ++ rest
      ∧ rest.countP L2Call.isTrigger = 0 := by
  by_cases hdone : L2Builder.completes env event = true
  · obtain ⟨_, _, hcalls⟩ := processL2_of_completes env st event hdone
    refine ⟨_, hcalls, ?_⟩
    rw [storeAndFree_calls]
    split <;> simp [List.countP_cons, L2Call.isTrigger, L2Call.isCompute, L2Call.isOnNonZS]
  · simp only [Bool.not_eq_true] at hdone
    exact ⟨[], by rw [processL2_of_not_completes env st event hdone]; simp, rfl⟩

/-- The event `processL2` leaves behind is the event with the verdict of the
invoked trigger function recorded by `setL2Processed`. -/
theorem processL2_event {Event Pool : Type} (env : L2Env Event Pool)
    (st : L2State Pool) (event : Event) :
    (L2Builder.processL2 env st event).event = L2Builder.processed env event := by
  by_cases hdone : L2Builder.completes env event = true
  · exact (processL2_of_completes env st event hdone).2.1
  · simp only [Bool.not_eq_true] at hdone
    rw [processL2_of_not_completes env st event hdone]

/-- C11. L2 entry-point selection in `L2Builder::buildEvent`, for every LKr
fragment.  A trigger function is invoked only if the pool serves the event and
`Event::addLKREvent` reports that the fragment was the last one missing.  In
that case exactly one trigger function is invoked in the call, right after
`addLKREvent`: `L2TriggerProcessor::compute` if the event is not waiting for
non-zero-suppressed LKr data at entry to `processL2`, and
`onNonZSuppressedLKrDataReceived` if it is; the next call is `setL2Processed`
with the verdict byte the trigger function returned, on the event as the trigger
function left it. -/
theorem buildEvent_selects_entry_point {Event Pool : Type} (env : L2Env Event Pool)
    (st : L2State Pool) (lkrEventFragment : LKREvent) :
    ((L2Builder.buildEvent env st lkrEventFragment).2.countP L2Call.isTrigger ≠ 0 →
        ∃ event, env.GetEvent st.pool lkrEventFragment.eventNumber = some event
          ∧ (env.addLKREvent event lkrEventFragment).1 = true)
      ∧ ∀ event, env.GetEvent st.pool lkrEventFragment.eventNumber = some event →
          (env.addLKREvent event lkrEventFragment).1 = true →
          (L2Builder.buildEvent env st lkrEventFragment).2.countP L2Call.isTrigger = 1
            ∧ (env.isWaitingForNonZSuppressedLKrData
                  (env.addLKREvent event lkrEventFragment).2 = false →
                ∃ rest, (L2Builder.buildEvent env st lkrEventFragment).2
                    = [.addLKREvent event lkrEventFragment,
                        .compute (env.addLKREvent event lkrEventFragment).2,
                        .setL2Processed
                          (env.compute (env.addLKREvent event lkrEventFragment).2).2
                          (wrap8 (env.compute (env.addLKREvent event lkrEventFragment).2).1)]
                      ++ rest
                  ∧ rest.countP L2Call.isTrigger = 0)
            ∧ (env.isWaitingForNonZSuppressedLKrData
                  (env.addLKREvent event lkrEventFragment).2 = true →
                ∃ rest, (L2Builder.buildEvent env st lkrEventFragment).2
                    = [.addLKREvent event lkrEventFragment,
                        .onNonZSuppressedLKrDataReceived
                          (env.addLKREvent event lkrEventFragment).2,
                        .setL2Processed
                          (env.onNonZSuppressedLKrDataReceived
                            (env.addLKREvent event lkrEventFragment).2).2
                          (wrap8 (env.onNonZSuppressedLKrDataReceived
                            (env.addLKREvent event lkrEventFragment).2).1)]
                      ++ rest
                  ∧ rest.countP L2Call.isTrigger = 0) := by
  constructor
  · intro hcount
    cases hget : env.GetEvent st.pool lkrEventFragment.eventNumber with
    | none =>
      exfalso
      apply hcount
      unfold L2Builder.buildEvent
      simp [hget, List.countP_cons, L2Call.isTrigger, L2Call.isCompute, L2Call.isOnNonZS]
    | some event =>
      refine ⟨event, rfl, ?_⟩
      by_contra hadd
      apply hcount
      unfold L2Builder.buildEvent
      simp [hget, hadd, List.countP_cons, L2Call.isTrigger, L2Call.isCompute,
        L2Call.isOnNonZS]
  · intro event hget hadd
    have hcalls : (L2Builder.buildEvent env st lkrEventFragment).2
        = .addLKREvent event lkrEventFragment
          :: (L2Builder.processL2 env st (env.addLKREvent event lkrEventFragment).2).calls := by
      unfold L2Builder.buildEvent
      simp [hget, hadd]
    obtain ⟨rest, hp, hrest⟩ :=
      processL2_calls env st (env.addLKREvent event lkrEventFragment).2
    obtain ⟨_, _, htrig, _⟩ :=
      triggerCalls_counts env (env.addLKREvent event lkrEventFragment).2
    obtain ⟨hcompute, honNonZS⟩ :=
      triggerCalls_eq env (env.addLKREvent event lkrEventFragment).2
    rw [hcalls, hp]
    refine ⟨?_, ?_, ?_⟩
    · simp [List.countP_cons, List.countP_append, htrig, hrest, L2Call.isTrigger,
        L2Call.isCompute, L2Call.isOnNonZS]
    · intro hw
      exact ⟨rest, by rw [hcompute hw]; rfl, hrest⟩
    · intro hw
      exact ⟨rest, by rw [honNonZS hw]; rfl, hrest⟩

/-- Three fragments of event 7 in a pool of 1024 events, verdict 9.  A fragment
that does not complete the event invokes no trigger function; one that completes
an event not waiting for non-zero-suppressed data invokes `compute` only; one
that completes an event waiting for it invokes
`onNonZSuppressedLKrDataReceived` only. -/
theorem buildEvent_selects_entry_point_witness :
    (L2Builder.buildEvent { sampleL2Env 9 false with addLKREvent := fun e _ => (false, e) }
        sampleL2State ⟨7, 64⟩).2 = [.addLKREvent ⟨7, false, 0⟩ ⟨7, 64⟩]
      ∧ (L2Builder.buildEvent (sampleL2Env 9 false) sampleL2State ⟨7, 64⟩).2
        = [.addLKREvent ⟨7, false, 0⟩ ⟨7, 64⟩, .compute ⟨7, false, 0⟩,
            .setL2Processed ⟨7, false, 0⟩ 9, .SendEvent ⟨7, false, 9⟩,
            .FreeEvent ⟨7, false, 9⟩]
      ∧ (L2Builder.buildEvent (sampleL2Env 9 false) sampleL2State ⟨7, 64⟩).2.countP
        L2Call.isTrigger = 1
      ∧ (L2Builder.buildEvent
          { sampleL2Env 9 false with GetEvent := fun _ n => some ⟨n, true, 0⟩ }
          sampleL2State ⟨7, 64⟩).2
        = [.addLKREvent ⟨7, true, 0⟩ ⟨7, 64⟩, .onNonZSuppressedLKrDataReceived ⟨7, true, 0⟩,
            .setL2Processed ⟨7, true, 0⟩ 9, .SendEvent ⟨7, true, 9⟩,
            .FreeEvent ⟨7, true, 9⟩] :=
  ⟨rfl, rfl,
    ((buildEvent_selects_entry_point (sampleL2Env 9 false) sampleL2State ⟨7, 64⟩).2
      ⟨7, false, 0⟩ rfl rfl).1,
    rfl⟩

/-! ### Events sent against verdicts counted -/

/-- Counting a verdict byte adds 1 to the sum of the 256 verdict counters, as
long as the counter does not wrap. -/
theorem verdictsCounted_addAt (f : Nat → Nat) (i : Nat) (hi : i < 256)
    (hlt : f i + 1 < 2 ^ 64) :
    ∑ v ∈ Finset.range 256, addAt f i 1 v = (∑ v ∈ Finset.range 256, f v) + 1 := by
  have hupd : addAt f i 1 = Function.update f i (f i + 1) := by
    funext j
    unfold addAt wrap64
    by_cases hj : j = i
    · subst hj
      simp only [if_true, Function.update_same]
      exact Nat.mod_eq_of_lt hlt
    · simp [hj]
  have hmem : i ∈ Finset.range 256 := Finset.mem_range.mpr hi
  have hsplit := Finset.add_sum_erase (Finset.range 256) f hmem
  rw [hupd, Finset.sum_update_of_mem hmem, Finset.sdiff_singleton_eq_erase]
  omega

/-- The closing block keeps the events sent below the verdicts counted, and
counts one verdict more. -/
theorem storeAndFree_counters {Event Pool : Type} (env : L2Env Event Pool)
    (st : L2State Pool) (event : Event) (L2Trigger m : Nat) (hv : L2Trigger < 256)
    (hsum : st.verdictsCounted ≤ m)
    (hev : st.EventsSentToStorage_ ≤ st.verdictsCounted) (hm : m + 1 < 2 ^ 64) :
    (L2Builder.storeAndFree env st event L2Trigger).st.verdictsCounted ≤ m + 1
      ∧ (L2Builder.storeAndFree env st event L2Trigger).st.EventsSentToStorage_
        ≤ (L2Builder.storeAndFree env st event L2Trigger).st.verdictsCounted := by
  have hle : st.L2Triggers_ L2Trigger ≤ st.verdictsCounted :=
    Finset.single_le_sum (f := st.L2Triggers_) (fun _ _ => Nat.zero_le _)
      (Finset.mem_range.mpr hv)
  have hcount : (L2Builder.storeAndFree env st event L2Trigger).st.verdictsCounted
      = st.verdictsCounted + 1 := by
    unfold L2State.verdictsCounted
    rw [(storeAndFree_L2Triggers env st event L2Trigger).1]
    exact verdictsCounted_addAt st.L2Triggers_ L2Trigger hv (by omega)
  rw [hcount, (storeAndFree_storage env st event L2Trigger).1]
  refine ⟨by omega, ?_⟩
  split
  · unfold wrap64
    rw [Nat.mod_eq_of_lt (by omega)]
    omega
  · omega

/-- One operation keeps the events sent below the verdicts counted, and counts
at most one verdict more. -/
theorem step_counters {Event Pool : Type} (env : L2Env Event Pool)
    (st : L2State Pool) (op : L2Op Event Pool) (m : Nat)
    (hsum : st.verdictsCounted ≤ m)
    (hev : st.EventsSentToStorage_ ≤ st.verdictsCounted) (hm : m + 1 < 2 ^ 64) :
    (L2Builder.step env st op).verdictsCounted ≤ m + 1
      ∧ (L2Builder.step env st op).EventsSentToStorage_
        ≤ (L2Builder.step env st op).verdictsCounted := by
  have hkeep : st.verdictsCounted ≤ m + 1 := by omega
  have hprocess : ∀ event,
      (L2Builder.processL2 env st event).st.verdictsCounted ≤ m + 1
        ∧ (L2Builder.processL2 env st event).st.EventsSentToStorage_
          ≤ (L2Builder.processL2 env st event).st.verdictsCounted := by
    intro event
    by_cases hdone : L2Builder.completes env event = true
    · rw [(processL2_of_completes env st event hdone).1]
      refine storeAndFree_counters env st _ _ m ?_ hsum hev hm
      unfold L2Builder.verdict wrap8
      split <;> exact Nat.mod_lt _ (by norm_num)
    · simp only [Bool.not_eq_true] at hdone
      rw [processL2_of_not_completes env st event hdone]
      exact ⟨hkeep, hev⟩
  cases op with
  | processL2 event => exact hprocess event
  | other change => exact ⟨hkeep, hev⟩
  | buildEvent lkrEventFragment =>
    show (L2Builder.buildEvent env st lkrEventFragment).1.verdictsCounted ≤ m + 1
      ∧ (L2Builder.buildEvent env st lkrEventFragment).1.EventsSentToStorage_
        ≤ (L2Builder.buildEvent env st lkrEventFragment).1.verdictsCounted
    unfold L2Builder.buildEvent
    cases hget : env.GetEvent st.pool lkrEventFragment.eventNumber with
    | none => exact ⟨hkeep, hev⟩
    | some event =>
      by_cases hadd : (env.addLKREvent event lkrEventFragment).1 = true
      · simp only [hadd, if_true]
        exact hprocess _
      · simp only [hadd]
        exact ⟨hkeep, hev⟩

/-- A sequence of operations too short to wrap a counter keeps the events sent
below the verdicts counted. -/
theorem run_counters {Event Pool : Type} (env : L2Env Event Pool)
    (ops : List (L2Op Event Pool)) :
    ∀ (st : L2State Pool) (m : Nat), st.verdictsCounted ≤ m →
      st.EventsSentToStorage_ ≤ st.verdictsCounted → m + ops.length < 2 ^ 64 →
      (L2Builder.run env st ops).EventsSentToStorage_
        ≤ (L2Builder.run env st ops).verdictsCounted := by
  induction ops with
  | nil => intro st m _ hev _; exact hev
  | cons op ops ih =>
    intro st m hsum hev hlen
    simp only [List.length_cons] at hlen
    obtain ⟨hsum1, hev1⟩ := step_counters env st op m hsum hev (by omega)
    exact ih (L2Builder.step env st op) (m + 1) hsum1 hev1 (by omega)

/-- C12. Counter invariant of the L2 builder: starting from all-zero counters,
after every finite sequence of `buildEvent` and `processL2` calls (with any
changes to the pool in between) that is shorter than 2^64, so that no 64-bit
counter wraps around, `EventsSentToStorage_` is at most the sum of
`L2Triggers_[v]` over the 256 verdict bytes `v`. -/
theorem run_events_sent_le_verdicts_counted {Event Pool : Type} (env : L2Env Event Pool)
    (st : L2State Pool) (ops : List (L2Op Event Pool))
    (hzero : ∀ v, st.L2Triggers_ v = 0) (hsent : st.EventsSentToStorage_ = 0)
    (hlen : ops.length < 2 ^ 64) :
    (L2Builder.run env st ops).EventsSentToStorage_
      ≤ ∑ v ∈ Finset.range 256, (L2Builder.run env st ops).L2Triggers_ v := by
  have hsum : st.verdictsCounted = 0 := by
    unfold L2State.verdictsCounted
    simp [hzero]
  exact run_counters env ops st 0 (by omega) (by omega) (by omega)

/-- Two fragments for events 7 and 8 and a direct `processL2` call, all with
verdict 9, from zero counters: three events are sent and `L2Triggers_[9]` is 3,
so the events sent do not exceed the verdicts counted. -/
theorem run_events_sent_le_verdicts_counted_witness :
    (L2Builder.run (sampleL2Env 9 false) sampleL2State
        [.buildEvent ⟨7, 64⟩, .buildEvent ⟨8, 64⟩, .processL2 sampleEvent]).EventsSentToStorage_
        = 3
      ∧ (L2Builder.run (sampleL2Env 9 false) sampleL2State
        [.buildEvent ⟨7, 64⟩, .buildEvent ⟨8, 64⟩, .processL2 sampleEvent]).L2Triggers_ 9 = 3
      ∧ (L2Builder.run (sampleL2Env 9 false) sampleL2State
        [.buildEvent ⟨7, 64⟩, .buildEvent ⟨8, 64⟩, .processL2 sampleEvent]).EventsSentToStorage_
        ≤ ∑ v ∈ Finset.range 256, (L2Builder.run (sampleL2Env 9 false) sampleL2State
          [.buildEvent ⟨7, 64⟩, .buildEvent ⟨8, 64⟩, .processL2 sampleEvent]).L2Triggers_ v :=
  ⟨rfl, rfl,
    run_events_sent_le_verdicts_counted (sampleL2Env 9 false) sampleL2State
      [.buildEvent ⟨7, 64⟩, .buildEvent ⟨8, 64⟩, .processL2 sampleEvent]
      (fun _ => rfl) rfl (by simp)⟩

end na62
